import Mathlib

/-!
# Verification of the rara-sourcecred core: grain allocation and CredRank

Shallow embedding of the two algorithmic subsystems of the repository:
the grain-allocation engine (`computeAllocation` with its IMMEDIATE,
RECENT, BALANCED and SPECIAL policies) and the relevant parts of the
CredRank pipeline (zero-weight edge filtering in the Markov Process Graph
builder, and the Cred Graph assembler output shape).

The repository snapshot contains the unit-test files
(`core/ledger/grainAllocation.test.js`, `core/credrank/testUtils.js`)
but not the implementation modules themselves; following the
specification, the missing implementations are modelled from the spec's
words and calibrated against the concrete input/output pairs that the
repository's own test files pin down.  Theorems in the test-vector
section below prove that the model reproduces every concrete expectation
of `grainAllocation.test.js`.

Grain amounts are exact non-negative scale-fixed integers, embedded as
`ℕ`; cred scores are real-valued and embedded as `ℚ` (the JavaScript
float arithmetic on cred values is exact on all the small inputs
appearing in the tests, and the spec treats cred as exact reals).
-/

/-! ## Data model (spec §3) -/

/-- An allocation identity: `{id, paid, cred}`.  `id` is an
abstract identifier (uuids in the code, embedded as `ℕ`); `paid` is the
non-negative grain amount already received; `cred` is the per-interval
cred history. -/
structure AllocationIdentity where
  id : ℕ
  paid : ℕ
  cred : List ℚ
deriving DecidableEq

/-- The closed variant set of allocation policies, each carrying a
non-negative grain `budget` (spec §3). -/
inductive AllocationPolicy where
  | IMMEDIATE (budget : ℕ) (numIntervalsLookback : ℕ)
  | RECENT (budget : ℕ) (discount : ℚ)
  | BALANCED (budget : ℕ)
  | SPECIAL (budget : ℕ) (memo : String) (recipient : ℕ)
deriving DecidableEq

/-- The budget carried by a policy. -/
def AllocationPolicy.budget : AllocationPolicy → ℕ
  | .IMMEDIATE b _ => b
  | .RECENT b _ => b
  | .BALANCED b => b
  | .SPECIAL b _ _ => b

/-- Whether a policy is the SPECIAL variant. -/
def AllocationPolicy.isSpecial : AllocationPolicy → Bool
  | .SPECIAL _ _ _ => true
  | _ => false

/-- A grain receipt `{id, amount}`. -/
structure GrainReceipt where
  id : ℕ
  amount : ℕ
deriving DecidableEq

/-- An allocation: freshly generated identifier, the policy, and one
receipt per input identity in input order (spec §3). -/
structure Allocation where
  id : ℕ
  policy : AllocationPolicy
  receipts : List GrainReceipt
deriving DecidableEq

instance : DecidableEq (Except String Allocation) := fun x y =>
  match x, y with
  | .ok a, .ok b =>
    if h : a = b then .isTrue (by simp [h]) else .isFalse (by simp [h])
  | .error a, .error b =>
    if h : a = b then .isTrue (by simp [h]) else .isFalse (by simp [h])
  | .ok _, .error _ => .isFalse (by simp)
  | .error _, .ok _ => .isFalse (by simp)

/-! ## Grain allocation engine (spec §4.4)

Modelled from the spec: the implementation module
`core/ledger/grainAllocation.js` and the policy modules under
`core/ledger/policies/` are not part of the snapshot (only their unit
tests are), so the engine below is written from spec §4.4, with every
numeric choice pinned by the expectations of
`grainAllocation.test.js`. -/

/-- Validation helper: do all cred histories have the same length
(spec §4.4, "inconsistent cred length")?  Takes the list of lengths. -/
def sameLengths : List ℕ → Bool
  | [] => true
  | n :: ns => ns.all (fun m => m = n)

/-- Total cred across all identities and intervals (spec §4.4,
the "cred is zero" validation). -/
def totalCred (ids : List AllocationIdentity) : ℚ :=
  (ids.map (fun x => x.cred.sum)).sum

/-- Horner evaluation: `hornerAux q [x0, x1, x2] = x0 + q*(x1 + q*x2)`,
i.e. `Σ_k x_k * q^k`. -/
def hornerAux (q : ℚ) : List ℚ → ℚ
  | [] => 0
  | x :: xs => x + q * hornerAux q xs

/-- RECENT policy weight of one identity: cred summed with exponential
decay toward the past, `Σ_i cred[i] * (1-discount)^(n-1-i)`, computed in
Horner form over the reversed history.  (The factor is `1 - discount`:
`discount = 1` keeps only the most recent interval and `discount = 0`
degenerates to the lifetime sum, matching spec §4.2's parentheticals and
the test vectors of `grainAllocation.test.js`.) -/
def recentWeight (d : ℚ) (cred : List ℚ) : ℚ :=
  hornerAux (1 - d) cred.reverse

/-- IMMEDIATE policy weight of one identity: the sum of its cred over
the most recent `k` intervals (spec §4.4). -/
def immediateWeight (k : ℕ) (cred : List ℚ) : ℚ :=
  (cred.drop (cred.length - k)).sum

/-- BALANCED policy weights: each identity's shortfall
`max 0 (target - paid)` where `target = lifetimeCredShare * (budget +
totalPaid)` (spec §4.4).  The budget is then split proportionally to
these shortfalls, which is what makes the conservation invariant hold
even when some identities are overpaid (resolving spec §9's open
question the way the repository's `BALANCED(budget=0)` test does). -/
def balancedWeights (b : ℕ) (ids : List AllocationIdentity) : List ℚ :=
  let tc := totalCred ids
  let totalPaid : ℕ := (ids.map (fun x => x.paid)).sum
  let pool : ℚ := (b : ℚ) + (totalPaid : ℚ)
  ids.map (fun x => max 0 (pool * x.cred.sum / tc - (x.paid : ℚ)))

/-- SPECIAL policy amounts over the list of identity ids: the first
occurrence of the recipient gets the whole budget, everyone else 0. -/
def specialAmounts (b : ℕ) (r : ℕ) : List ℕ → List ℕ
  | [] => []
  | i :: rest =>
    if i = r then b :: rest.map (fun _ => 0)
    else 0 :: specialAmounts b r rest

/-- Deterministic proportional split of an exact integer budget over
non-negative rational weights (spec §4.4 "Rounding"): walk the weights
in identity order, give each identity the floor of its proportional
share of the *remaining* budget relative to the *remaining* weight, so
that the final positive-weight identity absorbs the remainder and the
total always equals the budget. -/
def splitBudget : ℕ → List ℚ → List ℕ
  | _, [] => []
  | b, w :: ws =>
    let a : ℕ := (⌊(b : ℚ) * w / (w + ws.sum)⌋).toNat
    a :: splitBudget (b - a) ws

/-- Split the budget over the weights, treating an all-zero weight
vector with a positive budget as the "cred is zero" input-error case
(spec §4.4 on IMMEDIATE: "if all weights are 0, every receipt is 0 only
when budget is 0 (otherwise this is the cred-is-zero validation
case)"). -/
def checkedSplit (b : ℕ) (ws : List ℚ) : Except String (List ℕ) :=
  if ws.sum ≤ 0 ∧ b ≠ 0 then .error "cred is zero"
  else .ok (splitBudget b ws)

/-- The per-policy weight vector handed to the proportional split
(empty for SPECIAL, which does not split proportionally). -/
def effectiveWeights : AllocationPolicy → List AllocationIdentity → List ℚ
  | .IMMEDIATE _ k, ids => ids.map (fun x => immediateWeight k x.cred)
  | .RECENT _ d, ids => ids.map (fun x => recentWeight d x.cred)
  | .BALANCED b, ids => balancedWeights b ids
  | .SPECIAL _ _ _, _ => []

/-- Per-policy receipt amounts (spec §4.4 policy semantics). -/
def policyAmounts (p : AllocationPolicy) (ids : List AllocationIdentity) :
    Except String (List ℕ) :=
  match p with
  | .IMMEDIATE b k => checkedSplit b (effectiveWeights (.IMMEDIATE b k) ids)
  | .RECENT b d => checkedSplit b (effectiveWeights (.RECENT b d) ids)
  | .BALANCED b => checkedSplit b (effectiveWeights (.BALANCED b) ids)
  | .SPECIAL b _ r =>
    if r ∈ ids.map (fun x => x.id) then
      .ok (specialAmounts b r (ids.map (fun x => x.id)))
    else .error "no active grain account for identity"

/-- Pair the identity ids with the computed amounts, in input order. -/
def mkReceipts (idList : List ℕ) (amounts : List ℕ) : List GrainReceipt :=
  List.zipWith (fun i a => GrainReceipt.mk i a) idList amounts

/-- Total grain distributed by a receipt list. -/
def sumAmounts (rs : List GrainReceipt) : ℕ :=
  (rs.map (fun r => r.amount)).sum

/-- The post-computation budget assertion (spec §4.4, tested standalone
in `grainAllocation.test.js`): re-sum the receipts and fail unless the
total equals the policy budget. -/
def _validateAllocationBudget (a : Allocation) : Except String Allocation :=
  if sumAmounts a.receipts = a.policy.budget then .ok a
  else
    .error ("has budget of " ++ toString a.policy.budget ++
      " but distributed " ++ toString (sumAmounts a.receipts))

/-- `computeAllocation(policy, identities)` (spec §4.4).  The freshly
generated allocation uuid is threaded in as the explicit `fresh`
argument; nothing else depends on it.  Validation order follows the
spec: non-empty identities, consistent cred lengths, then (non-SPECIAL
only) positive total cred.  (The NaN/Infinity check of the spec is
unrepresentable over `ℚ` and therefore omitted.) -/
def computeAllocation (fresh : ℕ) (p : AllocationPolicy)
    (ids : List AllocationIdentity) : Except String Allocation :=
  if ids.isEmpty then .error "must have at least one identity"
  else if !(sameLengths (ids.map (fun x => x.cred.length))) then
    .error "inconsistent cred length"
  else if p.isSpecial = false ∧ totalCred ids ≤ 0 then .error "cred is zero"
  else
    match policyAmounts p ids with
    | .error e => .error e
    | .ok amounts =>
      _validateAllocationBudget
        (Allocation.mk fresh p (mkReceipts (ids.map (fun x => x.id)) amounts))

/-! ## Markov process graph builder: edge handling (spec §4.1)

Modelled from the spec: `core/credrank/markovProcessGraph.js` is not in
the snapshot (only its test fixtures in `core/credrank/testUtils.js`
are).  The spec's rule embedded here is the per-edge zero-weight filter:
"An edge whose weight pair is `{forwards: 0, backwards: 0}` contributes
no transition mass in either direction and is dropped entirely"; every
other edge contributes one forward and one backward transition entry
carrying its directional weights. -/

/-- A directional edge weight pair from the weighted contribution
graph. -/
structure EdgeWeight where
  forwards : ℚ
  backwards : ℚ
deriving DecidableEq

/-- An edge of the weighted contribution graph (addresses embedded as
strings, as in `core/graph`'s hierarchical addresses). -/
structure GraphEdge where
  address : String
  src : String
  dst : String
  timestampMs : ℤ
deriving DecidableEq

/-- A transition entry of the Markov process graph arising from one
original edge in one direction, before normalization: it remembers the
originating edge address, the direction, the endpoints and the raw
directional weight. -/
structure MarkovEdge where
  edgeAddress : String
  isForward : Bool
  src : String
  dst : String
  transitionWeight : ℚ
deriving DecidableEq

/-- Transition entries contributed by a single weighted-graph edge:
none at all if its weight pair is `{forwards: 0, backwards: 0}`,
otherwise the forward entry `src → dst` and the backward entry
`dst → src`. -/
def edgeMarkovEdges (w : String → EdgeWeight) (e : GraphEdge) :
    List MarkovEdge :=
  if (w e.address).forwards = 0 ∧ (w e.address).backwards = 0 then []
  else
    [MarkovEdge.mk e.address true e.src e.dst (w e.address).forwards,
     MarkovEdge.mk e.address false e.dst e.src (w e.address).backwards]

/-- All transition entries arising from the original graph's edges. -/
def markovEdges (w : String → EdgeWeight) (edges : List GraphEdge) :
    List MarkovEdge :=
  (edges.map (edgeMarkovEdges w)).flatten

/-! ### The weighted-graph fixture of `core/credrank/testUtils.js` -/

/-- Edge `e0` of the CredRank test fixture: c0 → participant1. -/
def fixtureE0 : GraphEdge := GraphEdge.mk "e0" "c0" "participant1" 1

/-- Edge `e1` of the CredRank test fixture: c1 → participant1. -/
def fixtureE1 : GraphEdge := GraphEdge.mk "e1" "c1" "participant1" 3

/-- Edge `e2` of the CredRank test fixture: c0 → c1, weight left unset
(implicit `{forwards: 1, backwards: 1}`). -/
def fixtureE2 : GraphEdge := GraphEdge.mk "e2" "c0" "c1" 4

/-- Edge `e3` of the CredRank test fixture: c0 → c1 in parallel with
`e2`, given the explicit weight `{forwards: 0, backwards: 0}` and hence
filtered from the Markov process graph. -/
def fixtureE3 : GraphEdge := GraphEdge.mk "e3" "c0" "c1" 4

/-- The edge list of the CredRank test fixture. -/
def fixtureEdges : List GraphEdge :=
  [fixtureE0, fixtureE1, fixtureE2, fixtureE3]

/-- The edge weights of the CredRank test fixture
(`testUtils.js` `weights()`): e0 ↦ {1,0}, e1 ↦ {2,1}, e3 ↦ {0,0}, and
every unset address (such as e2) defaults to the implicit {1,1}. -/
def fixtureEdgeWeights : String → EdgeWeight := fun a =>
  if a = "e0" then EdgeWeight.mk 1 0
  else if a = "e1" then EdgeWeight.mk 2 1
  else if a = "e3" then EdgeWeight.mk 0 0
  else EdgeWeight.mk 1 1

/-! ## Cred graph assembler (spec §4.3)

Modelled from the spec: `core/credrank/credGraph.js` and
`core/credrank/compute.js` are not in the snapshot.  The assembler pulls
each participant's epoch-node probability mass from the solver's
distribution, scales it, and emits `{cred, credPerInterval}` with
`credPerInterval` ordered exactly as the input interval sequence and
`cred` the scaled total over the participant's epoch nodes. -/

/-- A time interval `{startTimeMs, endTimeMs}`. -/
structure CredInterval where
  startTimeMs : ℤ
  endTimeMs : ℤ
deriving DecidableEq

/-- A participant of the assembled cred graph, carrying its total cred
and its per-interval cred time series. -/
structure CredParticipant where
  id : ℕ
  cred : ℚ
  credPerInterval : List ℚ
deriving DecidableEq

/-- The per-interval cred series of one participant: the scaled
distribution mass of its epoch node for each interval, in interval
order. -/
def credPerIntervalOf (dist : ℕ → CredInterval → ℚ) (scale : ℚ) (pid : ℕ)
    (intervals : List CredInterval) : List ℚ :=
  intervals.map (fun iv => scale * dist pid iv)

/-- The total cred of one participant: the scaled total mass over its
epoch nodes. -/
def credOf (dist : ℕ → CredInterval → ℚ) (scale : ℚ) (pid : ℕ)
    (intervals : List CredInterval) : ℚ :=
  scale * (intervals.map (fun iv => dist pid iv)).sum

/-- The cred graph assembler: map the solver's epoch-node masses back
onto (participant, interval) pairs. -/
def assembleCredGraph (dist : ℕ → CredInterval → ℚ) (scale : ℚ)
    (pids : List ℕ) (intervals : List CredInterval) : List CredParticipant :=
  pids.map (fun pid =>
    CredParticipant.mk pid (credOf dist scale pid intervals)
      (credPerIntervalOf dist scale pid intervals))

/-- The interval sequence of the CredRank test fixture. -/
def fixtureIntervals : List CredInterval :=
  [CredInterval.mk 0 2, CredInterval.mk 2 4]

/-! ## Definitions written from the claims' words

These definitions transcribe the claim/spec formulas (not the code);
they exist to be compared with the model above. -/

/-- The RECENT weight formula exactly as the spec sentence states it:
`Σ_i cred[i] * discount^(n-1-i)`. -/
def claimedRecentWeight (d : ℚ) (cred : List ℚ) : ℚ :=
  ∑ i ∈ Finset.range cred.length,
    cred.getD i 0 * d ^ (cred.length - 1 - i)

/-- The amended RECENT weight formula, in the same closed-sum shape but
with decay factor `1 - discount`: `Σ_i cred[i] * (1-discount)^(n-1-i)`. -/
def recentWeightSpec (d : ℚ) (cred : List ℚ) : ℚ :=
  ∑ i ∈ Finset.range cred.length,
    cred.getD i 0 * (1 - d) ^ (cred.length - 1 - i)

/-- The BALANCED per-identity receipt formula exactly as the claim
states it: `max(0, totalCredShare(identity) * (budget + totalPaid) -
paid(identity))`, with `totalCredShare` the identity's lifetime cred
divided by the total lifetime cred. -/
def claimedBalancedReceipt (b : ℕ) (ids : List AllocationIdentity)
    (x : AllocationIdentity) : ℚ :=
  max 0 (x.cred.sum / totalCred ids *
    ((b : ℚ) + ((ids.map (fun y => y.paid)).sum : ℚ)) - (x.paid : ℚ))

/-- Replace every identity's `paid` field according to `g`, leaving ids
and cred histories untouched (used to state that a policy ignores
`paid`). -/
def repaint (g : AllocationIdentity → ℕ)
    (ids : List AllocationIdentity) : List AllocationIdentity :=
  ids.map (fun x => AllocationIdentity.mk x.id (g x) x.cred)

/-- Policy well-formedness from the data model (spec §3):
a RECENT policy's discount lies in `[0,1]` (enforced by `toDiscount` in
the code); the other variants carry no further numeric constraint. -/
def discountOk : AllocationPolicy → Prop
  | .RECENT _ d => 0 ≤ d ∧ d ≤ 1
  | _ => True

/-- The policy-specific validation precondition of spec §4.4: a SPECIAL
policy's recipient must appear among the identities; every other policy
requires positive total cred, and (spec §4.4 on IMMEDIATE) an all-zero
effective-weight vector is only admissible with a zero budget. -/
def validFor : AllocationPolicy → List AllocationIdentity → Prop
  | .SPECIAL _ _ r, ids => r ∈ ids.map (fun x => x.id)
  | p, ids => 0 < totalCred ids ∧ (p.budget = 0 ∨ 0 < (effectiveWeights p ids).sum)

/-! ## The model reproduces the repository's unit tests

One theorem per concrete expectation of
`core/ledger/grainAllocation.test.js` (the NaN test is not
representable over `ℚ` and has no counterpart here).  These anchor the
spec-modelled engine to the repository's own code. -/

/-- Test "errors if there are no identities". -/
theorem test_no_identities :
    computeAllocation 0 (.IMMEDIATE 5 1) [] =
      .error "must have at least one identity" := by
  rfl

/-- Test "errors if the total cred is zero". -/
theorem test_cred_is_zero :
    computeAllocation 0 (.IMMEDIATE 5 1) [AllocationIdentity.mk 1 0 [0]] =
      .error "cred is zero" := by
  norm_num [computeAllocation, sameLengths, totalCred, AllocationPolicy.isSpecial]

/-- Test "errors if there's inconsistent Cred lengths". -/
theorem test_inconsistent_cred :
    computeAllocation 0 (.IMMEDIATE 5 1)
      [AllocationIdentity.mk 1 0 [1], AllocationIdentity.mk 2 0 [1, 2]] =
      .error "inconsistent cred length" := by
  norm_num [computeAllocation, sameLengths]

/-- Test "errors if the receipts don't match the budget"
(`_validateAllocationBudget` on a hand-built allocation with an empty
receipt list and budget 5). -/
theorem test_budget_mismatch :
    _validateAllocationBudget (Allocation.mk 0 (.IMMEDIATE 5 1) []) =
      .error "has budget of 5 but distributed 0" := by
  rfl

/-- Test "immediate policy / splits based on just most recent cred":
`IMMEDIATE(10, lookback 1)` on `{paid:100, cred:[10,2]}` and
`{paid:0, cred:[0,3]}` gives receipts `[4, 6]`. -/
theorem test_immediate_split :
    computeAllocation 0 (.IMMEDIATE 10 1)
      [AllocationIdentity.mk 1 100 [10, 2], AllocationIdentity.mk 2 0 [0, 3]] =
    .ok (Allocation.mk 0 (.IMMEDIATE 10 1)
      [GrainReceipt.mk 1 4, GrainReceipt.mk 2 6]) := by
  norm_num [computeAllocation, policyAmounts, checkedSplit, effectiveWeights,
    immediateWeight, splitBudget, sameLengths, totalCred, mkReceipts,
    sumAmounts, _validateAllocationBudget, AllocationPolicy.budget,
    AllocationPolicy.isSpecial]
  repeat (simp only [Int.reduceToNat]; norm_num)

/-- Test "immediate policy / handles 0 budget correctly". -/
theorem test_immediate_zero_budget :
    computeAllocation 0 (.IMMEDIATE 0 1)
      [AllocationIdentity.mk 1 3 [1, 1], AllocationIdentity.mk 2 0 [3, 0]] =
    .ok (Allocation.mk 0 (.IMMEDIATE 0 1)
      [GrainReceipt.mk 1 0, GrainReceipt.mk 2 0]) := by
  norm_num [computeAllocation, policyAmounts, checkedSplit, effectiveWeights,
    immediateWeight, splitBudget, sameLengths, totalCred, mkReceipts,
    sumAmounts, _validateAllocationBudget, AllocationPolicy.budget,
    AllocationPolicy.isSpecial]

/-- Test "recent policy / splits based on discounted cred":
`RECENT(100, 0.1)` on the three identities gives `[38, 31, 31]`. -/
theorem test_recent_split :
    computeAllocation 0 (.RECENT 100 (1/10))
      [AllocationIdentity.mk 1 0 [0, 0, 100], AllocationIdentity.mk 2 100 [100, 0, 0],
       AllocationIdentity.mk 3 0 [100, 0, 0]] =
    .ok (Allocation.mk 0 (.RECENT 100 (1/10))
      [GrainReceipt.mk 1 38, GrainReceipt.mk 2 31, GrainReceipt.mk 3 31]) := by
  norm_num [computeAllocation, policyAmounts, checkedSplit, effectiveWeights,
    recentWeight, hornerAux, splitBudget, sameLengths, totalCred, mkReceipts,
    sumAmounts, _validateAllocationBudget, AllocationPolicy.budget,
    AllocationPolicy.isSpecial]
  repeat (simp only [Int.reduceToNat]; norm_num)

/-- Test "recent policy / is not influenced by grain paid". -/
theorem test_recent_ignores_paid :
    computeAllocation 0 (.RECENT 100 (1/10))
      [AllocationIdentity.mk 1 0 [100, 100, 100],
       AllocationIdentity.mk 2 100 [100, 100, 100]] =
    .ok (Allocation.mk 0 (.RECENT 100 (1/10))
      [GrainReceipt.mk 1 50, GrainReceipt.mk 2 50]) := by
  norm_num [computeAllocation, policyAmounts, checkedSplit, effectiveWeights,
    recentWeight, hornerAux, splitBudget, sameLengths, totalCred, mkReceipts,
    sumAmounts, _validateAllocationBudget, AllocationPolicy.budget,
    AllocationPolicy.isSpecial]
  repeat (simp only [Int.reduceToNat]; norm_num)

/-- Test "recent policy / handles full discount correctly":
`RECENT(100, 1)` pays only by the final interval's cred. -/
theorem test_recent_full_discount :
    computeAllocation 0 (.RECENT 100 1)
      [AllocationIdentity.mk 1 50 [0, 50, 0], AllocationIdentity.mk 2 0 [0, 10, 100]] =
    .ok (Allocation.mk 0 (.RECENT 100 1)
      [GrainReceipt.mk 1 0, GrainReceipt.mk 2 100]) := by
  norm_num [computeAllocation, policyAmounts, checkedSplit, effectiveWeights,
    recentWeight, hornerAux, splitBudget, sameLengths, totalCred, mkReceipts,
    sumAmounts, _validateAllocationBudget, AllocationPolicy.budget,
    AllocationPolicy.isSpecial]
  repeat (simp only [Int.reduceToNat]; norm_num)

/-- Test "recent policy / handles 0 budget correctly". -/
theorem test_recent_zero_budget :
    computeAllocation 0 (.RECENT 0 (1/10))
      [AllocationIdentity.mk 1 50 [100, 50, 10], AllocationIdentity.mk 2 0 [0, 10, 100]] =
    .ok (Allocation.mk 0 (.RECENT 0 (1/10))
      [GrainReceipt.mk 1 0, GrainReceipt.mk 2 0]) := by
  norm_num [computeAllocation, policyAmounts, checkedSplit, effectiveWeights,
    recentWeight, hornerAux, splitBudget, sameLengths, totalCred, mkReceipts,
    sumAmounts, _validateAllocationBudget, AllocationPolicy.budget,
    AllocationPolicy.isSpecial]

/-- Test "balanced policy / splits based on lifetime Cred when there's
no paid amounts": `BALANCED(100)` gives `[40, 60]`. -/
theorem test_balanced_split :
    computeAllocation 0 (.BALANCED 100)
      [AllocationIdentity.mk 1 0 [1, 1], AllocationIdentity.mk 2 0 [3, 0]] =
    .ok (Allocation.mk 0 (.BALANCED 100)
      [GrainReceipt.mk 1 40, GrainReceipt.mk 2 60]) := by
  norm_num [computeAllocation, policyAmounts, checkedSplit, effectiveWeights,
    balancedWeights, splitBudget, sameLengths, totalCred, mkReceipts,
    sumAmounts, _validateAllocationBudget, AllocationPolicy.budget,
    AllocationPolicy.isSpecial]
  repeat (simp only [Int.reduceToNat]; norm_num)

/-- Test "balanced policy / takes past payment into account":
`BALANCED(20)` with one overpaid identity gives `[20, 0]`. -/
theorem test_balanced_past_payment :
    computeAllocation 0 (.BALANCED 20)
      [AllocationIdentity.mk 1 0 [1, 1], AllocationIdentity.mk 2 30 [3, 0]] =
    .ok (Allocation.mk 0 (.BALANCED 20)
      [GrainReceipt.mk 1 20, GrainReceipt.mk 2 0]) := by
  norm_num [computeAllocation, policyAmounts, checkedSplit, effectiveWeights,
    balancedWeights, splitBudget, sameLengths, totalCred, mkReceipts,
    sumAmounts, _validateAllocationBudget, AllocationPolicy.budget,
    AllocationPolicy.isSpecial]
  repeat (simp only [Int.reduceToNat]; norm_num)

/-- Test "balanced policy / handles 0 budget correctly":
`BALANCED(0)` gives `[0, 0]` even with an underpaid identity. -/
theorem test_balanced_zero_budget :
    computeAllocation 0 (.BALANCED 0)
      [AllocationIdentity.mk 1 30 [1, 1], AllocationIdentity.mk 2 0 [3, 0]] =
    .ok (Allocation.mk 0 (.BALANCED 0)
      [GrainReceipt.mk 1 0, GrainReceipt.mk 2 0]) := by
  norm_num [computeAllocation, policyAmounts, checkedSplit, effectiveWeights,
    balancedWeights, splitBudget, sameLengths, totalCred, mkReceipts,
    sumAmounts, _validateAllocationBudget, AllocationPolicy.budget,
    AllocationPolicy.isSpecial]

/-- Test "special policy / distributes the budget to the stated
recipient". -/
theorem test_special_distributes :
    computeAllocation 0 (.SPECIAL 100 "something" 1) [AllocationIdentity.mk 1 0 [1]] =
    .ok (Allocation.mk 0 (.SPECIAL 100 "something" 1) [GrainReceipt.mk 1 100]) := by
  norm_num [computeAllocation, policyAmounts, specialAmounts, sameLengths,
    totalCred, mkReceipts, sumAmounts, _validateAllocationBudget,
    AllocationPolicy.budget, AllocationPolicy.isSpecial]

/-- Test "special policy / errors if the recipient is not available". -/
theorem test_special_missing_recipient :
    computeAllocation 0 (.SPECIAL 100 "something" 1) [AllocationIdentity.mk 2 0 [1]] =
      .error "no active grain account for identity" := by
  norm_num [computeAllocation, policyAmounts, sameLengths, totalCred,
    AllocationPolicy.isSpecial]

/-! ## Helper lemmas about the split and the receipt plumbing -/

/-- Horner evaluation of a non-negative list at a non-negative point is
non-negative. -/
theorem hornerAux_nonneg (q : ℚ) (hq : 0 ≤ q) :
    ∀ l : List ℚ, (∀ x ∈ l, 0 ≤ x) → 0 ≤ hornerAux q l := by
  intro l
  induction l with
  | nil => intro _; simp [hornerAux]
  | cons x xs ih =>
    intro hl
    have hx : 0 ≤ x := hl x (by simp)
    have hxs : 0 ≤ hornerAux q xs := ih (fun y hy => hl y (by simp [hy]))
    have := mul_nonneg hq hxs
    simp only [hornerAux]
    linarith

/-- RECENT weights are non-negative whenever the discount is at most 1
and the cred history is non-negative. -/
theorem recentWeight_nonneg (d : ℚ) (cred : List ℚ) (hd : d ≤ 1)
    (hc : ∀ x ∈ cred, 0 ≤ x) : 0 ≤ recentWeight d cred := by
  refine hornerAux_nonneg (1 - d) (by linarith) cred.reverse ?_
  intro x hx
  exact hc x (List.mem_reverse.mp hx)

/-- IMMEDIATE weights are non-negative on non-negative cred. -/
theorem immediateWeight_nonneg (k : ℕ) (cred : List ℚ)
    (hc : ∀ x ∈ cred, 0 ≤ x) : 0 ≤ immediateWeight k cred := by
  refine List.sum_nonneg ?_
  intro x hx
  exact hc x (List.drop_subset _ _ hx)

/-- BALANCED weights (shortfalls clamped at zero) are non-negative. -/
theorem balancedWeights_nonneg (b : ℕ) (ids : List AllocationIdentity) :
    ∀ w ∈ balancedWeights b ids, 0 ≤ w := by
  intro w hw
  simp only [balancedWeights, List.mem_map] at hw
  obtain ⟨x, -, rfl⟩ := hw
  exact le_max_left 0 _

/-- `splitBudget` hands out one amount per weight. -/
theorem splitBudget_length (b : ℕ) (ws : List ℚ) :
    (splitBudget b ws).length = ws.length := by
  induction ws generalizing b with
  | nil => simp [splitBudget]
  | cons w t ih => simp [splitBudget, ih]

/-- A zero budget splits into all-zero amounts. -/
theorem splitBudget_zero (ws : List ℚ) :
    splitBudget 0 ws = ws.map (fun _ => 0) := by
  induction ws with
  | nil => simp [splitBudget]
  | cons w t ih =>
    simp only [splitBudget, List.map_cons, Nat.cast_zero, zero_mul, zero_div,
      Int.floor_zero, Int.toNat_zero, Nat.zero_sub, ih]

/-- The head amount of a split step never exceeds the remaining
budget. -/
theorem splitBudget_head_le (b : ℕ) (w s : ℚ) (hs : 0 ≤ s)
    (hpos : 0 < w + s) : (⌊(b : ℚ) * w / (w + s)⌋).toNat ≤ b := by
  have hle : (b : ℚ) * w / (w + s) ≤ (b : ℚ) := by
    rw [div_le_iff₀ hpos]
    have : (0 : ℚ) ≤ (b : ℚ) := by positivity
    nlinarith
  have hfloor : ⌊(b : ℚ) * w / (w + s)⌋ ≤ (b : ℤ) := by
    calc ⌊(b : ℚ) * w / (w + s)⌋ ≤ ⌊(b : ℚ)⌋ := Int.floor_le_floor hle
    _ = (b : ℤ) := Int.floor_natCast b
  exact Int.toNat_le.mpr hfloor

/-- Conservation: over non-negative weights with positive total, the
split distributes the budget exactly. -/
theorem splitBudget_sum (ws : List ℚ) (b : ℕ)
    (hw : ∀ w ∈ ws, 0 ≤ w) (hpos : 0 < ws.sum) :
    (splitBudget b ws).sum = b := by
  induction ws generalizing b with
  | nil => simp at hpos
  | cons w t ih =>
    have hw0 : 0 ≤ w := hw w (by simp)
    have hts : 0 ≤ t.sum := List.sum_nonneg (fun x hx => hw x (by simp [hx]))
    have hsum : 0 < w + t.sum := by simpa using hpos
    have hle : (⌊(b : ℚ) * w / (w + t.sum)⌋).toNat ≤ b :=
      splitBudget_head_le b w t.sum hts hsum
    rcases lt_or_eq_of_le hts with htpos | htzero
    · have hrec := ih (b - (⌊(b : ℚ) * w / (w + t.sum)⌋).toNat)
        (fun x hx => hw x (List.mem_cons_of_mem _ hx)) htpos
      simp only [splitBudget, List.sum_cons, hrec]
      omega
    · have hwpos : 0 < w := by linarith
      have hone : (b : ℚ) * w / (w + t.sum) = (b : ℚ) := by
        rw [← htzero, add_zero, mul_div_assoc, div_self (ne_of_gt hwpos), mul_one]
      have hzeros : (splitBudget (b - (⌊(b : ℚ) * w / (w + t.sum)⌋).toNat) t).sum = b - (⌊(b : ℚ) * w / (w + t.sum)⌋).toNat := by
        have hb : (⌊(b : ℚ) * w / (w + t.sum)⌋).toNat = b := by
          rw [hone, Int.floor_natCast, Int.toNat_natCast]
        rw [hb, Nat.sub_self, splitBudget_zero]
        simp
      simp only [splitBudget, List.sum_cons, hzeros]
      omega

/-- An identity with weight zero receives amount zero from the split,
whatever the other weights and the budget are. -/
theorem splitBudget_zero_weight (ws : List ℚ) (b k : ℕ)
    (h : ws[k]? = some 0) : (splitBudget b ws)[k]? = some 0 := by
  induction ws generalizing b k with
  | nil => simp at h
  | cons w t ih =>
    cases k with
    | zero =>
      simp only [List.getElem?_cons_zero, Option.some.injEq] at h
      subst h
      simp [splitBudget]
    | succ k =>
      simp only [List.getElem?_cons_succ] at h
      simpa [splitBudget] using ih _ k h

/-- Summing the receipts built from equally long id and amount lists
recovers the amount total. -/
theorem mkReceipts_sum (idl : List ℕ) (amts : List ℕ)
    (h : idl.length = amts.length) :
    sumAmounts (mkReceipts idl amts) = amts.sum := by
  induction idl generalizing amts with
  | nil =>
    cases amts with
    | nil => simp [mkReceipts, sumAmounts]
    | cons a t => simp at h
  | cons i it ih =>
    cases amts with
    | nil => simp at h
    | cons a t =>
      simp only [List.length_cons, Nat.succ.injEq] at h
      simp only [mkReceipts, sumAmounts, List.zipWith_cons_cons, List.map_cons,
        List.sum_cons] at *
      rw [ih t h]

/-- Indexing into the built receipts list. -/
theorem mkReceipts_getElem (idl : List ℕ) (amts : List ℕ) (k i a : ℕ)
    (h1 : idl[k]? = some i) (h2 : amts[k]? = some a) :
    (mkReceipts idl amts)[k]? = some (GrainReceipt.mk i a) := by
  induction idl generalizing amts k with
  | nil => simp at h1
  | cons x xt ih =>
    cases amts with
    | nil => simp at h2
    | cons y yt =>
      cases k with
      | zero =>
        simp only [List.getElem?_cons_zero, Option.some.injEq] at h1 h2
        subst h1; subst h2
        simp [mkReceipts]
      | succ k =>
        simp only [List.getElem?_cons_succ] at h1 h2
        simpa [mkReceipts] using ih yt k h1 h2

/-- If the recipient occurs among the ids, the SPECIAL amounts sum to
the whole budget. -/
theorem specialAmounts_sum (b r : ℕ) (l : List ℕ) (h : r ∈ l) :
    (specialAmounts b r l).sum = b := by
  induction l with
  | nil => simp at h
  | cons i t ih =>
    by_cases hi : i = r
    · simp [specialAmounts, hi]
    · have ht : r ∈ t := by
        rcases List.mem_cons.mp h with h' | h'
        · exact absurd h'.symm hi
        · exact h'
      simp [specialAmounts, hi, ih ht]

/-- SPECIAL hands out one amount per identity. -/
theorem specialAmounts_length (b r : ℕ) (l : List ℕ) :
    (specialAmounts b r l).length = l.length := by
  induction l with
  | nil => simp [specialAmounts]
  | cons i t ih =>
    by_cases hi : i = r
    · simp [specialAmounts, hi]
    · simp [specialAmounts, hi, ih]

/-- Over duplicate-free ids, the SPECIAL amounts are pointwise `budget
if the id is the recipient, else 0`. -/
theorem specialAmounts_eq_map (b r : ℕ) (l : List ℕ) (h : l.Nodup) :
    specialAmounts b r l = l.map (fun i => if i = r then b else 0) := by
  induction l with
  | nil => simp [specialAmounts]
  | cons i t ih =>
    have hnd : t.Nodup := (List.nodup_cons.mp h).2
    by_cases hi : i = r
    · subst hi
      have hnotin : i ∉ t := (List.nodup_cons.mp h).1
      simp only [specialAmounts, List.map_cons]
      simp only [if_true]
      congr 1
      refine List.map_congr_left ?_
      intro x hx
      have : x ≠ i := fun hxi => hnotin (hxi ▸ hx)
      simp [this]
    · simp [specialAmounts, hi, ih hnd]

/-- When the weight total is positive or the budget is zero, the
checked split succeeds and conserves the budget over non-negative
weights. -/
theorem checkedSplit_ok (b : ℕ) (ws : List ℚ)
    (hw : ∀ w ∈ ws, 0 ≤ w) (hbw : b = 0 ∨ 0 < ws.sum) :
    checkedSplit b ws = .ok (splitBudget b ws) ∧ (splitBudget b ws).sum = b := by
  constructor
  · unfold checkedSplit
    rcases hbw with hb | hpos
    · simp [hb]
    · rw [if_neg]
      intro ⟨hle, _⟩
      exact absurd hpos (not_lt.mpr hle)
  · rcases hbw with hb | hpos
    · subst hb
      rw [splitBudget_zero]
      simp
    · exact splitBudget_sum ws b hw hpos

/-- Forward characterization: when validation passes and the policy
produces amounts summing to the budget, `computeAllocation` succeeds
with exactly those receipts. -/
theorem computeAllocation_eq_ok (fresh : ℕ) (p : AllocationPolicy)
    (ids : List AllocationIdentity) (amts : List ℕ)
    (h1 : ids ≠ []) (h2 : sameLengths (ids.map (fun x => x.cred.length)) = true)
    (h3 : ¬(p.isSpecial = false ∧ totalCred ids ≤ 0))
    (h4 : policyAmounts p ids = .ok amts)
    (h5 : amts.sum = p.budget)
    (h6 : amts.length = ids.length) :
    computeAllocation fresh p ids =
      .ok (Allocation.mk fresh p (mkReceipts (ids.map (fun x => x.id)) amts)) := by
  have hE : ids.isEmpty = false := by
    cases ids with
    | nil => exact absurd rfl h1
    | cons a t => rfl
  have hsum : sumAmounts (mkReceipts (ids.map (fun x => x.id)) amts) = p.budget := by
    rw [mkReceipts_sum _ _ (by simp [h6])]
    exact h5
  simp [computeAllocation, hE, h2, if_neg h3, h4, _validateAllocationBudget, hsum]

/-- Inverse characterization: a successful `computeAllocation` call
returns exactly the receipts built from the policy's amounts. -/
theorem computeAllocation_ok_elim (fresh : ℕ) (p : AllocationPolicy)
    (ids : List AllocationIdentity) (a : Allocation)
    (h : computeAllocation fresh p ids = .ok a) :
    ∃ amts, policyAmounts p ids = .ok amts ∧
      a = Allocation.mk fresh p (mkReceipts (ids.map (fun x => x.id)) amts) ∧
      sumAmounts a.receipts = p.budget := by
  unfold computeAllocation at h
  split at h
  · simp at h
  · split at h
    · simp at h
    · split at h
      · simp at h
      · split at h
        · simp at h
        · rename_i amts hm
          unfold _validateAllocationBudget at h
          split at h
          · rename_i hbudget
            refine ⟨amts, hm, ?_, ?_⟩
            · simp only [Except.ok.injEq] at h
              exact h.symm
            · simp only [Except.ok.injEq] at h
              rw [← h]
              exact hbudget
          · simp at h

/-- For non-SPECIAL policies, the policy amounts are the checked
proportional split over the effective weights. -/
theorem policyAmounts_nonspecial (p : AllocationPolicy)
    (ids : List AllocationIdentity) (hns : p.isSpecial = false) :
    policyAmounts p ids = checkedSplit p.budget (effectiveWeights p ids) := by
  cases p with
  | IMMEDIATE b k => rfl
  | RECENT b d => rfl
  | BALANCED b => rfl
  | SPECIAL b m r => simp [AllocationPolicy.isSpecial] at hns

/-- Non-SPECIAL effective weights are non-negative on valid input. -/
theorem effectiveWeights_nonneg (p : AllocationPolicy)
    (ids : List AllocationIdentity)
    (h3 : ∀ x ∈ ids, ∀ c ∈ x.cred, 0 ≤ c) (h4 : discountOk p) :
    ∀ w ∈ effectiveWeights p ids, 0 ≤ w := by
  cases p with
  | IMMEDIATE b k =>
    intro w hw
    simp only [effectiveWeights, List.mem_map] at hw
    obtain ⟨x, hx, rfl⟩ := hw
    exact immediateWeight_nonneg k x.cred (h3 x hx)
  | RECENT b d =>
    intro w hw
    simp only [effectiveWeights, List.mem_map] at hw
    obtain ⟨x, hx, rfl⟩ := hw
    exact recentWeight_nonneg d x.cred h4.2 (h3 x hx)
  | BALANCED b => exact balancedWeights_nonneg b ids
  | SPECIAL b m r => simp [effectiveWeights]

/-- Non-SPECIAL policies produce one weight per identity. -/
theorem effectiveWeights_length (p : AllocationPolicy)
    (ids : List AllocationIdentity) (hns : p.isSpecial = false) :
    (effectiveWeights p ids).length = ids.length := by
  cases p with
  | IMMEDIATE b k => simp [effectiveWeights]
  | RECENT b d => simp [effectiveWeights]
  | BALANCED b => simp [effectiveWeights, balancedWeights]
  | SPECIAL b m r => simp [AllocationPolicy.isSpecial] at hns

/-- Budget conservation for the non-SPECIAL policies. -/
theorem conserves_nonspecial (fresh : ℕ) (p : AllocationPolicy)
    (ids : List AllocationIdentity)
    (hns : p.isSpecial = false)
    (h1 : ids ≠ [])
    (h2 : sameLengths (ids.map (fun x => x.cred.length)) = true)
    (hwnn : ∀ w ∈ effectiveWeights p ids, 0 ≤ w)
    (htc : 0 < totalCred ids)
    (hbw : p.budget = 0 ∨ 0 < (effectiveWeights p ids).sum) :
    ∃ a, computeAllocation fresh p ids = .ok a ∧
      sumAmounts a.receipts = p.budget := by
  obtain ⟨hok, hsum⟩ := checkedSplit_ok p.budget (effectiveWeights p ids) hwnn hbw
  have hlen : (splitBudget p.budget (effectiveWeights p ids)).length = ids.length := by
    rw [splitBudget_length]
    exact effectiveWeights_length p ids hns
  refine ⟨_, computeAllocation_eq_ok fresh p ids _ h1 h2 ?_ ?_ hsum hlen, ?_⟩
  · intro ⟨_, hle⟩
    exact absurd htc (not_lt.mpr hle)
  · rw [policyAmounts_nonspecial p ids hns]
    exact hok
  · rw [mkReceipts_sum _ _ (by simp [hlen])]
    exact hsum

/-! ## Claim theorems -/

/-- C1: for every valid `(policy, identities)` input, of any policy
kind, `computeAllocation` returns an allocation whose receipt amounts
sum to exactly the policy budget, as an equality of exact integer grain
amounts. -/
theorem allocation_sum_eq_budget (fresh : ℕ) (p : AllocationPolicy)
    (ids : List AllocationIdentity)
    (h1 : ids ≠ [])
    (h2 : sameLengths (ids.map (fun x => x.cred.length)) = true)
    (h3 : ∀ x ∈ ids, ∀ c ∈ x.cred, 0 ≤ c)
    (h4 : discountOk p)
    (h5 : validFor p ids) :
    ∃ a, computeAllocation fresh p ids = .ok a ∧
      sumAmounts a.receipts = p.budget := by
  cases p with
  | SPECIAL b m r =>
    simp only [validFor] at h5
    have hok : policyAmounts (.SPECIAL b m r) ids =
        .ok (specialAmounts b r (ids.map (fun x => x.id))) := by
      simp [policyAmounts, h5]
    have hsum : (specialAmounts b r (ids.map (fun x => x.id))).sum = b :=
      specialAmounts_sum b r _ h5
    have hlen : (specialAmounts b r (ids.map (fun x => x.id))).length = ids.length := by
      rw [specialAmounts_length]
      simp
    refine ⟨_, computeAllocation_eq_ok fresh _ ids _ h1 h2 ?_ hok hsum hlen, ?_⟩
    · intro hcontra
      simp [AllocationPolicy.isSpecial] at hcontra
    · rw [mkReceipts_sum _ _ (by simp [hlen])]
      exact hsum
  | IMMEDIATE b k =>
    simp only [validFor] at h5
    exact conserves_nonspecial fresh _ ids rfl h1 h2
      (effectiveWeights_nonneg _ ids h3 h4) h5.1 h5.2
  | RECENT b d =>
    simp only [validFor] at h5
    exact conserves_nonspecial fresh _ ids rfl h1 h2
      (effectiveWeights_nonneg _ ids h3 h4) h5.1 h5.2
  | BALANCED b =>
    simp only [validFor] at h5
    exact conserves_nonspecial fresh _ ids rfl h1 h2
      (effectiveWeights_nonneg _ ids h3 h4) h5.1 h5.2

/-- Witness for C1 at the IMMEDIATE test input of
`grainAllocation.test.js`. -/
theorem allocation_sum_eq_budget_witness :
    ([AllocationIdentity.mk 1 100 [10, 2], AllocationIdentity.mk 2 0 [0, 3]] ≠
      ([] : List AllocationIdentity)) ∧
    sameLengths (([AllocationIdentity.mk 1 100 [10, 2],
      AllocationIdentity.mk 2 0 [0, 3]]).map (fun x => x.cred.length)) = true ∧
    (∀ x ∈ [AllocationIdentity.mk 1 100 [10, 2], AllocationIdentity.mk 2 0 [0, 3]],
      ∀ c ∈ x.cred, 0 ≤ c) ∧
    discountOk (.IMMEDIATE 10 1) ∧
    validFor (.IMMEDIATE 10 1)
      [AllocationIdentity.mk 1 100 [10, 2], AllocationIdentity.mk 2 0 [0, 3]] ∧
    (∃ a, computeAllocation 7 (.IMMEDIATE 10 1)
        [AllocationIdentity.mk 1 100 [10, 2], AllocationIdentity.mk 2 0 [0, 3]] = .ok a ∧
      sumAmounts a.receipts = (AllocationPolicy.IMMEDIATE 10 1).budget) :=
  ⟨by simp,
   by simp [sameLengths],
   by norm_num [List.forall_mem_cons],
   by simp [discountOk],
   by norm_num [validFor, totalCred, effectiveWeights, immediateWeight,
     AllocationPolicy.budget],
   allocation_sum_eq_budget 7 (.IMMEDIATE 10 1)
     [AllocationIdentity.mk 1 100 [10, 2], AllocationIdentity.mk 2 0 [0, 3]]
     (by simp)
     (by simp [sameLengths])
     (by norm_num [List.forall_mem_cons])
     (by simp [discountOk])
     (by norm_num [validFor, totalCred, effectiveWeights, immediateWeight,
       AllocationPolicy.budget])⟩

/-- C6: for every non-SPECIAL policy, when the total cred over all
identities and intervals is not positive, `computeAllocation` aborts
with the InputError "cred is zero" and returns no allocation. -/
theorem zero_cred_errors (fresh : ℕ) (p : AllocationPolicy)
    (ids : List AllocationIdentity)
    (h1 : ids ≠ [])
    (h2 : sameLengths (ids.map (fun x => x.cred.length)) = true)
    (hns : p.isSpecial = false)
    (hz : totalCred ids ≤ 0) :
    computeAllocation fresh p ids = .error "cred is zero" := by
  have hE : ids.isEmpty = false := by
    cases ids with
    | nil => exact absurd rfl h1
    | cons a t => rfl
  simp [computeAllocation, hE, h2, hns, hz]

/-- Witness for C6 at the "errors if the total cred is zero" test input
of `grainAllocation.test.js`. -/
theorem zero_cred_errors_witness :
    ([AllocationIdentity.mk 1 0 [0]] ≠ ([] : List AllocationIdentity)) ∧
    sameLengths (([AllocationIdentity.mk 1 0 [0]]).map (fun x => x.cred.length)) = true ∧
    AllocationPolicy.isSpecial (.IMMEDIATE 5 1) = false ∧
    totalCred [AllocationIdentity.mk 1 0 [0]] ≤ 0 ∧
    computeAllocation 3 (.IMMEDIATE 5 1) [AllocationIdentity.mk 1 0 [0]] =
      .error "cred is zero" :=
  ⟨by simp,
   by simp [sameLengths],
   by simp [AllocationPolicy.isSpecial],
   by norm_num [totalCred],
   zero_cred_errors 3 (.IMMEDIATE 5 1) [AllocationIdentity.mk 1 0 [0]]
     (by simp) (by simp [sameLengths]) (by simp [AllocationPolicy.isSpecial])
     (by norm_num [totalCred])⟩

/-- C8: `computeAllocation` is deterministic in everything except the
freshly generated allocation id: for one and the same
`(policy, identities)` input — identity order included — the receipts
(ids, amounts, and their order) are identical across calls, whatever
fresh allocation ids the two calls draw. -/
theorem computeAllocation_deterministic (f1 f2 : ℕ) (p : AllocationPolicy)
    (ids : List AllocationIdentity) :
    (computeAllocation f1 p ids).map (fun a => a.receipts) =
      (computeAllocation f2 p ids).map (fun a => a.receipts) := by
  unfold computeAllocation _validateAllocationBudget
  dsimp only
  split
  · rfl
  · split
    · rfl
    · split
      · rfl
      · split
        · rfl
        · split
          · rfl
          · rfl

/-- With full discount the RECENT weight of a history is exactly its
final entry. -/
theorem recentWeight_one (cred : List ℚ) (c : ℚ)
    (h : cred.getLast? = some c) : recentWeight 1 cred = c := by
  unfold recentWeight
  have hh : cred.reverse.head? = some c := by
    rw [List.head?_reverse]
    exact h
  cases hr : cred.reverse with
  | nil => rw [hr] at hh; simp at hh
  | cons x xs =>
    rw [hr] at hh
    simp only [List.head?_cons, Option.some.injEq] at hh
    subst hh
    simp [hornerAux]

/-- A successful checked split returns exactly the proportional
split. -/
theorem checkedSplit_ok_elim (b : ℕ) (ws : List ℚ) (amts : List ℕ)
    (h : checkedSplit b ws = .ok amts) : amts = splitBudget b ws := by
  unfold checkedSplit at h
  split at h
  · simp at h
  · simp only [Except.ok.injEq] at h
    exact h.symm

/-- C3: under the RECENT policy with discount 1, an identity whose cred
in the final interval is 0 receives a receipt of 0, regardless of its
cred in earlier intervals — only the most recent interval determines
the split. -/
theorem recent_full_discount_zero_receipt (fresh b : ℕ)
    (ids : List AllocationIdentity) (a : Allocation) (k : ℕ)
    (iden : AllocationIdentity)
    (hok : computeAllocation fresh (.RECENT b 1) ids = .ok a)
    (hk : ids[k]? = some iden)
    (hlast : iden.cred.getLast? = some 0) :
    a.receipts[k]? = some (GrainReceipt.mk iden.id 0) := by
  obtain ⟨amts, hpa, ha, -⟩ := computeAllocation_ok_elim fresh _ ids a hok
  have hsplit : amts = splitBudget b (effectiveWeights (.RECENT b 1) ids) :=
    checkedSplit_ok_elim b _ amts hpa
  have hwk : (effectiveWeights (.RECENT b 1) ids)[k]? = some 0 := by
    simp only [effectiveWeights, List.getElem?_map, hk, Option.map_some']
    rw [recentWeight_one iden.cred 0 hlast]
  have hak : amts[k]? = some 0 := by
    rw [hsplit]
    exact splitBudget_zero_weight _ b k hwk
  have hik : (ids.map (fun x => x.id))[k]? = some iden.id := by
    simp [List.getElem?_map, hk]
  rw [ha]
  exact mkReceipts_getElem _ amts k iden.id 0 hik hak

/-- Witness for C3 at the "handles full discount correctly" test input
of `grainAllocation.test.js`: the first identity has cred `[0, 50, 0]`
(zero in the final interval) and receives 0 although the second
identity's history is `[0, 10, 100]`. -/
theorem recent_full_discount_zero_receipt_witness :
    (computeAllocation 0 (.RECENT 100 1)
        [AllocationIdentity.mk 1 50 [0, 50, 0], AllocationIdentity.mk 2 0 [0, 10, 100]] =
      .ok (Allocation.mk 0 (.RECENT 100 1)
        [GrainReceipt.mk 1 0, GrainReceipt.mk 2 100])) ∧
    ([AllocationIdentity.mk 1 50 [0, 50, 0],
      AllocationIdentity.mk 2 0 [0, 10, 100]][0]? =
      some (AllocationIdentity.mk 1 50 [0, 50, 0])) ∧
    ((AllocationIdentity.mk 1 50 ([0, 50, 0] : List ℚ)).cred.getLast? = some 0) ∧
    ((Allocation.mk 0 (.RECENT 100 1)
      [GrainReceipt.mk 1 0, GrainReceipt.mk 2 100]).receipts[0]? =
      some (GrainReceipt.mk 1 0)) :=
  ⟨test_recent_full_discount,
   by simp,
   by norm_num,
   recent_full_discount_zero_receipt 0 100
     [AllocationIdentity.mk 1 50 [0, 50, 0], AllocationIdentity.mk 2 0 [0, 10, 100]]
     (Allocation.mk 0 (.RECENT 100 1) [GrainReceipt.mk 1 0, GrainReceipt.mk 2 100])
     0 (AllocationIdentity.mk 1 50 [0, 50, 0])
     test_recent_full_discount (by simp) (by norm_num)⟩

/-- Receipts of a SPECIAL allocation over duplicate-free ids: the
recipient's receipt is the whole budget, every other receipt is 0. -/
theorem mkReceipts_special (b r : ℕ) (idl : List ℕ) (h : idl.Nodup) :
    mkReceipts idl (specialAmounts b r idl) =
      idl.map (fun i => GrainReceipt.mk i (if i = r then b else 0)) := by
  rw [specialAmounts_eq_map b r idl h]
  unfold mkReceipts
  rw [List.zipWith_map_right, List.zipWith_same]

/-- C5: under the SPECIAL policy, when the recipient appears among the
identities the recipient's receipt is the entire budget and every other
identity receives 0; when the recipient is absent, `computeAllocation`
fails with the InputError "no active grain account for identity" and
returns no allocation. -/
theorem special_policy_behavior (fresh b : ℕ) (m : String) (r : ℕ)
    (ids : List AllocationIdentity)
    (h1 : ids ≠ [])
    (h2 : sameLengths (ids.map (fun x => x.cred.length)) = true) :
    ((r ∈ ids.map (fun x => x.id)) → (ids.map (fun x => x.id)).Nodup →
      computeAllocation fresh (.SPECIAL b m r) ids =
        .ok (Allocation.mk fresh (.SPECIAL b m r)
          (ids.map (fun x => GrainReceipt.mk x.id (if x.id = r then b else 0))))) ∧
    (r ∉ ids.map (fun x => x.id) →
      computeAllocation fresh (.SPECIAL b m r) ids =
        .error "no active grain account for identity") := by
  have hE : ids.isEmpty = false := by
    cases ids with
    | nil => exact absurd rfl h1
    | cons x t => rfl
  constructor
  · intro hmem hnd
    have hok : policyAmounts (.SPECIAL b m r) ids =
        .ok (specialAmounts b r (ids.map (fun x => x.id))) := by
      simp [policyAmounts, hmem]
    have hsum : (specialAmounts b r (ids.map (fun x => x.id))).sum = b :=
      specialAmounts_sum b r _ hmem
    have hlen : (specialAmounts b r (ids.map (fun x => x.id))).length = ids.length := by
      rw [specialAmounts_length]
      simp
    have := computeAllocation_eq_ok fresh (.SPECIAL b m r) ids _ h1 h2
      (by intro hcontra; simp [AllocationPolicy.isSpecial] at hcontra) hok hsum hlen
    rw [this, mkReceipts_special b r _ hnd, List.map_map]
    rfl
  · intro hnot
    have hpa : policyAmounts (.SPECIAL b m r) ids =
        .error "no active grain account for identity" := by
      simp [policyAmounts, hnot]
    simp [computeAllocation, hE, h2, AllocationPolicy.isSpecial, hpa]

/-- Witness for C5 at the two SPECIAL test inputs of
`grainAllocation.test.js`: the recipient present (receives the whole
budget of 100) and the recipient absent (the call errors). -/
theorem special_policy_behavior_witness :
    (computeAllocation 0 (.SPECIAL 100 "something" 1) [AllocationIdentity.mk 1 0 [1]] =
      .ok (Allocation.mk 0 (.SPECIAL 100 "something" 1)
        [GrainReceipt.mk 1 100])) ∧
    (computeAllocation 0 (.SPECIAL 100 "something" 1) [AllocationIdentity.mk 2 0 [1]] =
      .error "no active grain account for identity") :=
  ⟨by
    have h := (special_policy_behavior 0 100 "something" 1
      [AllocationIdentity.mk 1 0 [1]] (by simp) (by simp [sameLengths])).1
      (by simp) (by simp)
    simpa using h,
   by
    have h := (special_policy_behavior 0 100 "something" 1
      [AllocationIdentity.mk 2 0 [1]] (by simp) (by simp [sameLengths])).2
      (by simp)
    exact h⟩

/-- C7: an edge whose weight pair is `{forwards: 0, backwards: 0}` is
dropped entirely from the Markov process graph — no transition entry
arising from that edge exists in the constructed graph, in either
direction. -/
theorem zero_weight_edge_dropped (w : String → EdgeWeight)
    (edges : List GraphEdge) (e : GraphEdge)
    (_he : e ∈ edges) (hw : w e.address = EdgeWeight.mk 0 0) :
    ∀ me ∈ markovEdges w edges, me.edgeAddress ≠ e.address := by
  intro me hme haddr
  simp only [markovEdges, List.mem_flatten, List.mem_map] at hme
  obtain ⟨l, ⟨e', he', rfl⟩, hml⟩ := hme
  unfold edgeMarkovEdges at hml
  split at hml
  · simp at hml
  · rename_i hcond
    have haddr' : me.edgeAddress = e'.address := by
      rcases List.mem_cons.mp hml with h | h
      · rw [h]
      · rw [List.mem_singleton.mp h]
    have heq : e'.address = e.address := by
      rw [haddr'] at haddr
      exact haddr
    apply hcond
    rw [heq, hw]
    exact ⟨rfl, rfl⟩

/-- Witness for C7 at the `testUtils.js` fixture: edge `e3` has weight
`{forwards: 0, backwards: 0}` and no transition entry of the
constructed graph carries its address. -/
theorem zero_weight_edge_dropped_witness :
    (fixtureE3 ∈ fixtureEdges) ∧
    (fixtureEdgeWeights fixtureE3.address = EdgeWeight.mk 0 0) ∧
    (∀ me ∈ markovEdges fixtureEdgeWeights fixtureEdges,
      me.edgeAddress ≠ fixtureE3.address) :=
  ⟨by simp [fixtureEdges],
   by simp [fixtureEdgeWeights, fixtureE3],
   zero_weight_edge_dropped fixtureEdgeWeights fixtureEdges fixtureE3
     (by simp [fixtureEdges])
     (by simp [fixtureEdgeWeights, fixtureE3])⟩

/-- C10: the zero-weight filter is per-edge, not per-endpoint-pair —
every edge whose weight pair is not `{forwards: 0, backwards: 0}`
contributes its forward and backward transition entries, regardless of
any parallel zero-weight edge between the same endpoints. -/
theorem nonzero_edge_contributes (w : String → EdgeWeight)
    (edges : List GraphEdge) (e : GraphEdge)
    (he : e ∈ edges) (hw : ¬(w e.address = EdgeWeight.mk 0 0)) :
    MarkovEdge.mk e.address true e.src e.dst (w e.address).forwards ∈
      markovEdges w edges ∧
    MarkovEdge.mk e.address false e.dst e.src (w e.address).backwards ∈
      markovEdges w edges := by
  have hcond : ¬((w e.address).forwards = 0 ∧ (w e.address).backwards = 0) := by
    intro ⟨hf, hb⟩
    apply hw
    cases hwa : w e.address with
    | mk f bk =>
      rw [hwa] at hf hb
      simp only at hf hb
      rw [hf, hb]
  constructor
  · simp only [markovEdges, List.mem_flatten, List.mem_map]
    refine ⟨edgeMarkovEdges w e, ⟨e, he, rfl⟩, ?_⟩
    unfold edgeMarkovEdges
    rw [if_neg hcond]
    simp
  · simp only [markovEdges, List.mem_flatten, List.mem_map]
    refine ⟨edgeMarkovEdges w e, ⟨e, he, rfl⟩, ?_⟩
    unfold edgeMarkovEdges
    rw [if_neg hcond]
    simp

/-- Witness for C10 at the `testUtils.js` fixture: `e2` and `e3` are
parallel edges `c0 → c1`; `e3` carries weight `{0,0}` while `e2`
(implicitly weighted `{1,1}`) still contributes both its transition
entries between that pair of nodes. -/
theorem nonzero_edge_contributes_witness :
    (fixtureE2 ∈ fixtureEdges) ∧
    (fixtureE2.src = fixtureE3.src ∧ fixtureE2.dst = fixtureE3.dst) ∧
    (fixtureEdgeWeights fixtureE3.address = EdgeWeight.mk 0 0) ∧
    ¬(fixtureEdgeWeights fixtureE2.address = EdgeWeight.mk 0 0) ∧
    (MarkovEdge.mk fixtureE2.address true fixtureE2.src fixtureE2.dst
        (fixtureEdgeWeights fixtureE2.address).forwards ∈
      markovEdges fixtureEdgeWeights fixtureEdges ∧
     MarkovEdge.mk fixtureE2.address false fixtureE2.dst fixtureE2.src
        (fixtureEdgeWeights fixtureE2.address).backwards ∈
      markovEdges fixtureEdgeWeights fixtureEdges) :=
  ⟨by simp [fixtureEdges],
   by constructor <;> rfl,
   by simp [fixtureEdgeWeights, fixtureE3],
   by simp [fixtureEdgeWeights, fixtureE2],
   nonzero_edge_contributes fixtureEdgeWeights fixtureEdges fixtureE2
     (by simp [fixtureEdges])
     (by simp [fixtureEdgeWeights, fixtureE2])⟩

/-- C9: in every assembled cred graph, each participant's `cred` equals
the sum of its `credPerInterval` entries, and `credPerInterval` is
aligned one-to-one, in order, with the input interval sequence. -/
theorem credGraph_cred_eq_interval_sum (dist : ℕ → CredInterval → ℚ)
    (scale : ℚ) (pids : List ℕ) (intervals : List CredInterval) :
    ∀ p ∈ assembleCredGraph dist scale pids intervals,
      p.cred = p.credPerInterval.sum ∧
      p.credPerInterval.length = intervals.length ∧
      ∀ k : ℕ, p.credPerInterval[k]? =
        (intervals[k]?).map (fun iv => scale * dist p.id iv) := by
  intro p hp
  simp only [assembleCredGraph, List.mem_map] at hp
  obtain ⟨pid, hpid, rfl⟩ := hp
  refine ⟨?_, ?_, ?_⟩
  · unfold credOf credPerIntervalOf
    exact (List.sum_map_mul_left intervals _ scale).symm
  · simp [credPerIntervalOf]
  · intro k
    simp [credPerIntervalOf, List.getElem?_map]

/-- Witness for C9 on the fixture interval sequence with a constant
solver distribution of mass 1/2 and scale 3. -/
theorem credGraph_cred_eq_interval_sum_witness :
    (CredParticipant.mk 1 3 [3/2, 3/2] ∈
      assembleCredGraph (fun _ _ => 1/2) 3 [1, 2] fixtureIntervals) ∧
    ((3 : ℚ) = (([(3 : ℚ)/2, 3/2] : List ℚ).sum) ∧
     (([(3 : ℚ)/2, 3/2] : List ℚ).length = fixtureIntervals.length) ∧
     ∀ k : ℕ, (([(3 : ℚ)/2, 3/2] : List ℚ)[k]?) =
       (fixtureIntervals[k]?).map (fun _ => (3 : ℚ) * (1/2))) :=
  ⟨by norm_num [assembleCredGraph, credOf, credPerIntervalOf, fixtureIntervals],
   by
    have h := credGraph_cred_eq_interval_sum (fun _ _ => 1/2) 3 [1, 2] fixtureIntervals
      (CredParticipant.mk 1 3 [3/2, 3/2])
      (by norm_num [assembleCredGraph, credOf, credPerIntervalOf, fixtureIntervals])
    simpa using h⟩

/-- Horner evaluation of a list extended on the right. -/
theorem hornerAux_append (q : ℚ) (l : List ℚ) (x : ℚ) :
    hornerAux q (l ++ [x]) = hornerAux q l + x * q ^ l.length := by
  induction l with
  | nil => simp [hornerAux]
  | cons y t ih =>
    show y + q * hornerAux q (t ++ [x]) =
      (y + q * hornerAux q t) + x * q ^ (t.length + 1)
    rw [ih]
    ring

/-- The model's Horner-form RECENT weight equals the closed-sum
formula `Σ_i cred[i] * (1-discount)^(n-1-i)`. -/
theorem recentWeight_eq_spec (d : ℚ) (cred : List ℚ) :
    recentWeight d cred = recentWeightSpec d cred := by
  induction cred with
  | nil => simp [recentWeight, recentWeightSpec, hornerAux]
  | cons c cs ih =>
    have hrev : (c :: cs).reverse = cs.reverse ++ [c] := by simp
    have hlhs : recentWeight d (c :: cs) =
        recentWeight d cs + c * (1 - d) ^ cs.length := by
      unfold recentWeight
      rw [hrev, hornerAux_append]
      simp
    have hrhs : recentWeightSpec d (c :: cs) =
        recentWeightSpec d cs + c * (1 - d) ^ cs.length := by
      unfold recentWeightSpec
      rw [List.length_cons, Finset.sum_range_succ']
      have hcongr : ∀ i ∈ Finset.range cs.length,
          (c :: cs).getD (i + 1) 0 * (1 - d) ^ (cs.length + 1 - 1 - (i + 1)) =
          cs.getD i 0 * (1 - d) ^ (cs.length - 1 - i) := by
        intro i hi
        have : cs.length + 1 - 1 - (i + 1) = cs.length - 1 - i := by omega
        rw [this]
        rfl
      rw [Finset.sum_congr rfl hcongr]
      simp
    rw [hlhs, hrhs, ih]

/-- The amounts of the built receipts are exactly the amount list. -/
theorem mkReceipts_map_amount (idl : List ℕ) (amts : List ℕ)
    (h : idl.length = amts.length) :
    (mkReceipts idl amts).map (fun r => r.amount) = amts := by
  induction idl generalizing amts with
  | nil =>
    cases amts with
    | nil => rfl
    | cons a t => simp at h
  | cons i it ih =>
    cases amts with
    | nil => simp at h
    | cons a t =>
      simp only [List.length_cons, Nat.succ.injEq] at h
      simp only [mkReceipts, List.zipWith_cons_cons, List.map_cons]
      congr 1
      exact ih t h

/-- Repainting the paid fields never changes a RECENT allocation at
all: every quantity the engine consumes under RECENT is a function of
the ids and cred histories only. -/
theorem computeAllocation_recent_repaint (fresh b : ℕ) (d : ℚ)
    (ids : List AllocationIdentity) (g : AllocationIdentity → ℕ) :
    computeAllocation fresh (.RECENT b d) (repaint g ids) =
      computeAllocation fresh (.RECENT b d) ids := by
  have h1 : (repaint g ids).isEmpty = ids.isEmpty := by
    cases ids with
    | nil => rfl
    | cons x t => rfl
  have h2 : (repaint g ids).map (fun x => x.cred.length) =
      ids.map (fun x => x.cred.length) := by
    rw [repaint, List.map_map]
    rfl
  have h3 : totalCred (repaint g ids) = totalCred ids := by
    rw [totalCred, repaint, List.map_map]
    rfl
  have h4 : policyAmounts (.RECENT b d) (repaint g ids) =
      policyAmounts (.RECENT b d) ids := by
    simp only [policyAmounts, effectiveWeights]
    rw [repaint, List.map_map]
    rfl
  have h5 : (repaint g ids).map (fun x => x.id) = ids.map (fun x => x.id) := by
    rw [repaint, List.map_map]
    rfl
  unfold computeAllocation
  rw [h1, h2, h3, h4, h5]

/-- C2 (amended): under the RECENT policy, each identity's weight is
`Σ_i cred[i] * (1-discount)^(n-1-i)` — the decay factor is
`1 - discount`, not `discount` — the budget is split proportionally to
these weights by the deterministic rounding split, and the identities'
paid amounts have no influence whatsoever on the result. -/
theorem recent_weights_and_ignores_paid (fresh b : ℕ) (d : ℚ)
    (ids : List AllocationIdentity) :
    (∀ a, computeAllocation fresh (.RECENT b d) ids = .ok a →
      a.receipts.map (fun r => r.amount) =
        splitBudget b (ids.map (fun x => recentWeightSpec d x.cred))) ∧
    (∀ g, computeAllocation fresh (.RECENT b d) (repaint g ids) =
      computeAllocation fresh (.RECENT b d) ids) := by
  constructor
  · intro a hok
    obtain ⟨amts, hpa, ha, -⟩ := computeAllocation_ok_elim fresh _ ids a hok
    have hsplit : amts = splitBudget b (effectiveWeights (.RECENT b d) ids) :=
      checkedSplit_ok_elim b _ amts hpa
    have hlen : (ids.map (fun x => x.id)).length = amts.length := by
      rw [hsplit, splitBudget_length]
      simp [effectiveWeights]
    have hws : effectiveWeights (.RECENT b d) ids =
        ids.map (fun x => recentWeightSpec d x.cred) := by
      simp only [effectiveWeights]
      exact List.map_congr_left (fun x _ => recentWeight_eq_spec d x.cred)
    rw [ha]
    have : (mkReceipts (ids.map (fun x => x.id)) amts).map (fun r => r.amount) = amts :=
      mkReceipts_map_amount _ amts hlen
    rw [this, hsplit, hws]
  · intro g
    exact computeAllocation_recent_repaint fresh b d ids g

/-- Witness for the amended C2 at the RECENT test input of
`grainAllocation.test.js`, with an arbitrary repaint sending every paid
field to 5. -/
theorem recent_weights_and_ignores_paid_witness :
    (computeAllocation 0 (.RECENT 100 (1/10))
      [AllocationIdentity.mk 1 0 [0, 0, 100], AllocationIdentity.mk 2 100 [100, 0, 0],
       AllocationIdentity.mk 3 0 [100, 0, 0]] =
      .ok (Allocation.mk 0 (.RECENT 100 (1/10))
        [GrainReceipt.mk 1 38, GrainReceipt.mk 2 31, GrainReceipt.mk 3 31])) ∧
    ((Allocation.mk 0 (.RECENT 100 (1/10))
        [GrainReceipt.mk 1 38, GrainReceipt.mk 2 31, GrainReceipt.mk 3 31]).receipts.map
        (fun r => r.amount) =
      splitBudget 100
        (([AllocationIdentity.mk 1 0 [0, 0, 100], AllocationIdentity.mk 2 100 [100, 0, 0],
           AllocationIdentity.mk 3 0 [100, 0, 0]]).map
          (fun x => recentWeightSpec (1/10) x.cred))) ∧
    (computeAllocation 0 (.RECENT 100 (1/10))
        (repaint (fun _ => 5)
          [AllocationIdentity.mk 1 0 [0, 0, 100], AllocationIdentity.mk 2 100 [100, 0, 0],
           AllocationIdentity.mk 3 0 [100, 0, 0]]) =
      computeAllocation 0 (.RECENT 100 (1/10))
        [AllocationIdentity.mk 1 0 [0, 0, 100], AllocationIdentity.mk 2 100 [100, 0, 0],
         AllocationIdentity.mk 3 0 [100, 0, 0]]) :=
  ⟨test_recent_split,
   (recent_weights_and_ignores_paid 0 100 (1/10)
     [AllocationIdentity.mk 1 0 [0, 0, 100], AllocationIdentity.mk 2 100 [100, 0, 0],
      AllocationIdentity.mk 3 0 [100, 0, 0]]).1 _ test_recent_split,
   (recent_weights_and_ignores_paid 0 100 (1/10)
     [AllocationIdentity.mk 1 0 [0, 0, 100], AllocationIdentity.mk 2 100 [100, 0, 0],
      AllocationIdentity.mk 3 0 [100, 0, 0]]).2 (fun _ => 5)⟩

/-- C2 counterexample: at the `RECENT(100, 0.1)` input of the
repository's own test, the receipts are `[38, 31, 31]`, while the
claimed weight formula `Σ_i cred[i] * discount^(n-1-i)` gives identity
1 a weight of 100 out of a total of 102 — a proportional share of more
than 39 grain (in fact over 98) — so the receipts are not a split
proportional to the claimed weights under any rounding that moves a
receipt by at most one grain. -/
theorem recent_claim_counterexample :
    (computeAllocation 0 (.RECENT 100 (1/10))
      [AllocationIdentity.mk 1 0 [0, 0, 100], AllocationIdentity.mk 2 100 [100, 0, 0],
       AllocationIdentity.mk 3 0 [100, 0, 0]]).map
      (fun a => a.receipts.map (fun r => r.amount)) = .ok [38, 31, 31] ∧
    (100 : ℚ) * claimedRecentWeight (1/10) [0, 0, 100] /
      (claimedRecentWeight (1/10) [0, 0, 100] +
       claimedRecentWeight (1/10) [(100 : ℚ), 0, 0] +
       claimedRecentWeight (1/10) [(100 : ℚ), 0, 0]) - 38 > 1 := by
  constructor
  · rw [test_recent_split]
    rfl
  · norm_num [claimedRecentWeight, Finset.sum_range_succ]

/-- The model's BALANCED weights are pointwise the claim's shortfall
formula `max 0 (credShare * (budget + totalPaid) - paid)`. -/
theorem balancedWeights_eq_claim (b : ℕ) (ids : List AllocationIdentity) :
    balancedWeights b ids = ids.map (claimedBalancedReceipt b ids) := by
  have hcast : (((ids.map (fun x => x.paid)).sum : ℕ) : ℚ) =
      (ids.map (fun y => (y.paid : ℚ))).sum := by
    rw [Nat.cast_list_sum, List.map_map]
    rfl
  simp only [balancedWeights, claimedBalancedReceipt]
  refine List.map_congr_left ?_
  intro x _
  rw [hcast]
  congr 1
  ring

/-- C4 (amended): under the BALANCED policy the budget is split
proportionally (by the deterministic rounding split) among the
shortfalls `max 0 (totalCredShare * (budget + totalPaid) - paid)`;
receipts are therefore never negative, and the documented
`BALANCED(20)` example yields `[20, 0]` (see the witness). -/
theorem balanced_shortfall_split (fresh b : ℕ)
    (ids : List AllocationIdentity) :
    ∀ a, computeAllocation fresh (.BALANCED b) ids = .ok a →
      a.receipts.map (fun r => r.amount) =
        splitBudget b (ids.map (claimedBalancedReceipt b ids)) := by
  intro a hok
  obtain ⟨amts, hpa, ha, -⟩ := computeAllocation_ok_elim fresh _ ids a hok
  have hsplit : amts = splitBudget b (effectiveWeights (.BALANCED b) ids) :=
    checkedSplit_ok_elim b _ amts hpa
  have hlen : (ids.map (fun x => x.id)).length = amts.length := by
    rw [hsplit, splitBudget_length]
    simp [effectiveWeights, balancedWeights]
  rw [ha, mkReceipts_map_amount _ amts hlen, hsplit]
  simp only [effectiveWeights]
  rw [balancedWeights_eq_claim]

/-- Witness for the amended C4 at the `BALANCED(20)` test input of
`grainAllocation.test.js`: the underpaid identity receives the whole
budget of 20 and the overpaid identity receives 0. -/
theorem balanced_shortfall_split_witness :
    (computeAllocation 0 (.BALANCED 20)
      [AllocationIdentity.mk 1 0 [1, 1], AllocationIdentity.mk 2 30 [3, 0]] =
      .ok (Allocation.mk 0 (.BALANCED 20)
        [GrainReceipt.mk 1 20, GrainReceipt.mk 2 0])) ∧
    ((Allocation.mk 0 (.BALANCED 20)
        [GrainReceipt.mk 1 20, GrainReceipt.mk 2 0]).receipts.map (fun r => r.amount) =
      splitBudget 20
        (([AllocationIdentity.mk 1 0 [1, 1], AllocationIdentity.mk 2 30 [3, 0]]).map
          (claimedBalancedReceipt 20
            [AllocationIdentity.mk 1 0 [1, 1], AllocationIdentity.mk 2 30 [3, 0]]))) :=
  ⟨test_balanced_past_payment,
   balanced_shortfall_split 0 20
     [AllocationIdentity.mk 1 0 [1, 1], AllocationIdentity.mk 2 30 [3, 0]]
     _ test_balanced_past_payment⟩

/-- C4 counterexample: at the `BALANCED(0)` input of the repository's
own test — identities `{paid: 30, cred: [1,1]}` and
`{paid: 0, cred: [3,0]}` — every receipt is 0, but the claimed
per-identity formula `max(0, credShare * (budget + totalPaid) - paid)`
assigns identity 2 the amount 18 (share 3/5 of the pool 30): the
receipt is not given by that formula (which would also break the exact
budget conservation of a 0 budget). -/
theorem balanced_claim_counterexample :
    (computeAllocation 0 (.BALANCED 0)
      [AllocationIdentity.mk 1 30 [1, 1], AllocationIdentity.mk 2 0 [3, 0]]).map
      (fun a => a.receipts.map (fun r => r.amount)) = .ok [0, 0] ∧
    claimedBalancedReceipt 0
      [AllocationIdentity.mk 1 30 [1, 1], AllocationIdentity.mk 2 0 [3, 0]]
      (AllocationIdentity.mk 2 0 [3, 0]) = 18 ∧
    (18 : ℚ) ≠ 0 := by
  refine ⟨?_, ?_, by norm_num⟩
  · rw [test_balanced_zero_budget]
    rfl
  · norm_num [claimedBalancedReceipt, totalCred]
